import Mathlib

/-!
Verification development for the `translicate_consumer` replication
consumer: a shallow embedding of its LSN codec, DDL replayer, DML
applier, sequence synchronizer and per-message ordering coordinator,
together with theorems about the properties the design document states.

Conventions of the embedding:
* Python's arbitrary-precision ints become `Nat`/`Int`.
* Replica/primary statement execution becomes an oracle function
  (`String → Bool` and the like) saying whether a given statement
  succeeds; an exception raised by `cursor.execute` is the oracle
  returning `false`.
* Functions record the statements they attempted against the replica,
  so that theorems can speak about what was and was not executed.
* `print` logging is not modelled.
-/

/-! Section: the LSN codec (`lsn_to_int` / `int_to_lsn`).

`lsn_to_int` calls Python's `str.split('/')` and `int(half, 16)`;
`int_to_lsn` formats with `f"{n:x}"`.  We model `int(s, 16)` including
Python's leniencies: surrounding ASCII whitespace, a single leading
sign, an optional `0x`/`0X` tag, and single underscores between digits.
-/

def isPySpace (c : Char) : Bool :=
  c = ' ' || c = '\t' || c = '\n' || c = '\r' || c = '\x0b' || c = '\x0c'

def isHexDigitCh (c : Char) : Bool :=
  c.isDigit || ('a' ≤ c && c ≤ 'f') || ('A' ≤ c && c ≤ 'F')

def hexVal (c : Char) : Nat :=
  if c.isDigit then c.toNat - '0'.toNat
  else if 'a' ≤ c && c ≤ 'f' then c.toNat - 'a'.toNat + 10
  else if 'A' ≤ c && c ≤ 'F' then c.toNat - 'A'.toNat + 10
  else 0

/-- The lowercase hex digit for `d < 16`, as produced by `f"{n:x}"`. -/
def hexChar (d : Nat) : Char :=
  if d < 10 then Char.ofNat (48 + d) else Char.ofNat (87 + d)

/-- Digits of `n` in base 16, most significant first, lowercase:
the output of Python's `f"{n:x}"` (which prints `0` as `"0"`). -/
def toHexCore (n : Nat) : List Char :=
  if _h : n < 16 then [hexChar n]
  else toHexCore (n / 16) ++ [hexChar (n % 16)]
termination_by n
decreasing_by exact Nat.div_lt_self (by omega) (by omega)

/-- Continuation of Python's base-16 digit scanner after at least one
digit was read: further digits, with single `_` separators allowed. -/
def hexDigitsVal (acc : Nat) : List Char → Option Nat
  | [] => some acc
  | c :: cs =>
    if c = '_' then
      match cs with
      | c2 :: cs2 =>
        if isHexDigitCh c2 then hexDigitsVal (16 * acc + hexVal c2) cs2 else none
      | [] => none
    else if isHexDigitCh c then hexDigitsVal (16 * acc + hexVal c) cs else none

/-- A run of base-16 digits (underscore-separated), at least one digit,
no leading underscore. -/
def parseHexBody : List Char → Option Nat
  | [] => none
  | c :: cs => if isHexDigitCh c then hexDigitsVal (hexVal c) cs else none

/-- After the `0x`/`0X` tag Python permits one underscore before the
first digit. -/
def parseHexAfterTag : List Char → Option Nat
  | c :: cs => if c = '_' then parseHexBody cs else parseHexBody (c :: cs)
  | [] => none

/-- The part of `int(s, 16)` after whitespace and sign handling. -/
def parseAfterSign : List Char → Option Nat
  | c1 :: c2 :: rest =>
    if c1 = '0' && (c2 = 'x' || c2 = 'X') then parseHexAfterTag rest
    else parseHexBody (c1 :: c2 :: rest)
  | l => parseHexBody l

def stripSpaces (cs : List Char) : List Char :=
  ((cs.dropWhile isPySpace).reverse.dropWhile isPySpace).reverse

/-- Python's `int(s, 16)` on the characters of `s`: `none` models the
`ValueError` it raises on unparsable input. -/
def pyIntHexL (cs : List Char) : Option Int :=
  match stripSpaces cs with
  | [] => none
  | c :: rest =>
    if c = '+' then (parseAfterSign rest).map (fun n => (n : Int))
    else if c = '-' then (parseAfterSign rest).map (fun n => -(n : Int))
    else (parseAfterSign (c :: rest)).map (fun n => (n : Int))

/-- Python's `s.split('/')` on a character list. -/
def splitSlash : List Char → List (List Char)
  | [] => [[]]
  | c :: rest =>
    if c = '/' then [] :: splitSlash rest
    else
      match splitSlash rest with
      | [] => [[c]]
      | h :: t => (c :: h) :: t

/-- Model of `lsn_to_int` on a character list.  `high, low = lsn_str.split('/')`
raises unless the split yields exactly two parts; `(int(high, 16) << 32)
+ int(low, 16)` is `high * 2^32 + low` (Python's shift of a possibly
negative int is arithmetic).  `none` models the raised exception. -/
def lsnToIntL (cs : List Char) : Option Int :=
  if cs = ['0', '/', '0'] then some 0
  else
    match splitSlash cs with
    | [a, b] =>
      match pyIntHexL a, pyIntHexL b with
      | some h, some l => some (h * 4294967296 + l)
      | _, _ => none
    | _ => none

def lsn_to_int (s : String) : Option Int :=
  lsnToIntL s.toList

/-- Model of `int_to_lsn` on the integer: `f"{n >> 32:x}/{n & 0xFFFFFFFF:x}"`,
with `0` special-cased to `"0/0"`. -/
def intToLsnL (n : Nat) : List Char :=
  if n = 0 then ['0', '/', '0']
  else toHexCore (n / 4294967296) ++ '/' :: toHexCore (n % 4294967296)

def int_to_lsn (n : Nat) : String :=
  ⟨intToLsnL n⟩

/-! Section: the DDL replayer (`poll_and_apply_ddls`). -/

structure DdlEntry where
  lsn : Nat
  ddl : String
deriving DecidableEq

/-- Tests whether `needle` is a contiguous leading segment of `hay`. -/
def leadsWith : List Char → List Char → Bool
  | [], _ => true
  | _ :: _, [] => false
  | a :: as, b :: bs => a = b && leadsWith as bs

/-- Tests whether `needle` is a contiguous segment of `hay`: Python's
`needle in hay` on strings. -/
def strHasSub (needle : List Char) : List Char → Bool
  | [] => needle.isEmpty
  | c :: rest => leadsWith needle (c :: rest) || strHasSub needle rest

/-- The administrative-statement test of the replayer: whether
`ddl.lower()` contains "translicate_ddl_log" or "publication". -/
def isAdminDdl (ddl : String) : Bool :=
  strHasSub (("translicate_ddl_log").toList) (ddl.toList.map Char.toLower)
    || strHasSub (("publication").toList) (ddl.toList.map Char.toLower)

/-- Model of `poll_and_apply_ddls` over the already-fetched rows (the SQL query
returns the log entries with `lsn > since` in ascending `lsn` order).
Returns the new high-water LSN together with the list of DDL statements
that were executed against the replica (the last one possibly the
failed attempt at which the loop `break`s). -/
def pollAndApplyDdls (execOk : String → Bool) (since : Nat) :
    List DdlEntry → Nat × List String
  | [] => (since, [])
  | e :: rest =>
    if isAdminDdl e.ddl then pollAndApplyDdls execOk e.lsn rest
    else if execOk e.ddl then
      ((pollAndApplyDdls execOk e.lsn rest).1,
       e.ddl :: (pollAndApplyDdls execOk e.lsn rest).2)
    else (since, [e.ddl])

/-- The statements a fully-processed (no failure) run of the replayer
executes for a list of entries: the non-administrative ones, in order. -/
def executedOf (l : List DdlEntry) : List String :=
  (l.filter (fun x => !(isAdminDdl x.ddl))).map (fun x => x.ddl)

/-! Section: the DML applier (`apply_dml`). -/

structure OldKeys where
  keynames : List String
  keyvalues : List String
deriving DecidableEq

/-- One decoded wal2json change.  `oldkeys = none` models the `oldkeys`
key being absent from the change dict, so that reading it raises
`KeyError` inside the `try` block of `apply_dml`. -/
structure RowChange where
  table : String
  kind : String
  columnnames : List String
  columnvalues : List String
  oldkeys : Option OldKeys
deriving DecidableEq

inductive DmlResult where
  | executed (sql : String) (params : List String) (ok : Bool)
  | keyError
  | unsupported
deriving DecidableEq

/-- Model of `apply_dml`: builds the parameterized statement and executes it;
every exception is caught inside, so the function itself never raises.
`keyError` records the update/delete path raising (and catching)
`KeyError` on a missing `oldkeys` before any statement is built. -/
def applyDml (execOk : String → List String → Bool) (c : RowChange) : DmlResult :=
  if c.kind = "insert" then
    let sql := "INSERT INTO " ++ c.table ++ " (" ++ String.intercalate (", ") c.columnnames
      ++ ") VALUES (" ++ String.intercalate (", ") (List.replicate c.columnvalues.length ("%s")) ++ ")"
    DmlResult.executed sql c.columnvalues (execOk sql c.columnvalues)
  else if c.kind = "update" then
    match c.oldkeys with
    | none => DmlResult.keyError
    | some ok_ =>
      let setClause := String.intercalate (", ") (c.columnnames.map (fun col => col ++ " = %s"))
      let whereClause := String.intercalate (" AND ") (ok_.keynames.map (fun col => col ++ " = %s"))
      let sql := "UPDATE " ++ c.table ++ " SET " ++ setClause ++ " WHERE " ++ whereClause
      DmlResult.executed sql (c.columnvalues ++ ok_.keyvalues)
        (execOk sql (c.columnvalues ++ ok_.keyvalues))
  else if c.kind = "delete" then
    match c.oldkeys with
    | none => DmlResult.keyError
    | some ok_ =>
      let whereClause := String.intercalate (" AND ") (ok_.keynames.map (fun col => col ++ " = %s"))
      let sql := "DELETE FROM " ++ c.table ++ " WHERE " ++ whereClause
      DmlResult.executed sql ok_.keyvalues (execOk sql ok_.keyvalues)
  else DmlResult.unsupported

/-- The statement-and-parameters of an attempted execution, with the
success flag erased; `none` when nothing reached the replica. -/
def stripOk : DmlResult → Option (String × List String)
  | DmlResult.executed s p _ => some (s, p)
  | DmlResult.keyError => none
  | DmlResult.unsupported => none

/-! Section: the sequence synchronizer (`sync_sequences`). -/

structure SeqRow where
  schema : String
  table : String
  column : String
  sequence : String
deriving DecidableEq

/-- Stands for the parameterized
`SELECT setval(%s, COALESCE((SELECT MAX(column) FROM table), 1))`
statement `sync_sequences` builds for one catalog row. -/
structure SetvalStmt where
  seqName : String
  column : String
  table : String
deriving DecidableEq

def setvalOf (r : SeqRow) : SetvalStmt :=
  { seqName := r.schema ++ "." ++ r.sequence
    column := r.column
    table := r.schema ++ "." ++ r.table }

/-- Model of `sync_sequences` over the fetched catalog rows.  There is no
`try`/`except` in its loop: a failing `setval` raises out of the
function.  Returns the attempted statements in order and whether an
exception propagated (aborting the remaining rows and the caller). -/
def syncSequences (execOk : SetvalStmt → Bool) :
    List SeqRow → List SetvalStmt × Bool
  | [] => ([], false)
  | r :: rest =>
    if execOk (setvalOf r) then
      (setvalOf r :: (syncSequences execOk rest).1, (syncSequences execOk rest).2)
    else ([setvalOf r], true)

/-! Section: the per-message coordinator (`handle_message`). -/

structure WalMessage where
  dataStart : Nat
  changes : List RowChange
deriving DecidableEq

structure ConsumerState where
  appliedDdlLsn : Nat
  buffered : List (Nat × RowChange)
deriving DecidableEq

structure HmOut where
  ddlExec : List String
  dmlResults : List DmlResult
  syncAttempts : List SetvalStmt
  syncInvoked : Bool
  crashed : Bool
  feedbackSent : Bool
deriving DecidableEq

/-- The per-change loop of `handle_message`: drop changes against
`translicate_ddl_log`, buffer a change when the message LSN exceeds the
applied-DDL LSN, otherwise apply it immediately.  Returns the newly
buffered entries and the results of the immediate applications, both in
stream order. -/
def routeChanges (execDml : String → List String → Bool)
    (dataStart appliedDdl : Nat) :
    List RowChange → List (Nat × RowChange) × List DmlResult
  | [] => ([], [])
  | c :: rest =>
    if c.table = "translicate_ddl_log" then routeChanges execDml dataStart appliedDdl rest
    else if dataStart > appliedDdl then
      ((dataStart, c) :: (routeChanges execDml dataStart appliedDdl rest).1,
       (routeChanges execDml dataStart appliedDdl rest).2)
    else
      ((routeChanges execDml dataStart appliedDdl rest).1,
       applyDml execDml c :: (routeChanges execDml dataStart appliedDdl rest).2)

/-- The buffered-DML sweep of `handle_message`: applies every buffered
entry with `lsn <= msg.data_start` and retains the rest, in order. -/
def sweepBuffer (execDml : String → List String → Bool) (dataStart : Nat) :
    List (Nat × RowChange) → List (Nat × RowChange) × List DmlResult
  | [] => ([], [])
  | p :: rest =>
    if p.1 ≤ dataStart then
      ((sweepBuffer execDml dataStart rest).1,
       applyDml execDml p.2 :: (sweepBuffer execDml dataStart rest).2)
    else
      (p :: (sweepBuffer execDml dataStart rest).1,
       (sweepBuffer execDml dataStart rest).2)

/-- One invocation of `handle_message`.  The DDL poll runs first over
the log entries with `lsn > applied_ddl_lsn` (the SQL query's filter and
ordering), then the changes are routed, then the whole buffer (old
entries followed by the ones appended just now) is swept, then, if the
decoded change list was non-empty, the sequences are resynchronized;
`send_feedback` runs only if `sync_sequences` did not raise. -/
def handleMessage (execDdl : String → Bool)
    (execDml : String → List String → Bool)
    (execSeq : SetvalStmt → Bool) (seqRows : List SeqRow)
    (ddlLog : List DdlEntry) (st : ConsumerState) (msg : WalMessage) :
    ConsumerState × HmOut :=
  let fetched := ddlLog.filter (fun e => st.appliedDdlLsn < e.lsn)
  let polled := pollAndApplyDdls execDdl st.appliedDdlLsn fetched
  let routed := routeChanges execDml msg.dataStart polled.1 msg.changes
  let buf1 := st.buffered ++ routed.1
  let swept := if buf1.isEmpty then (([], []) : List (Nat × RowChange) × List DmlResult)
    else sweepBuffer execDml msg.dataStart buf1
  let doSync := !msg.changes.isEmpty
  let synced := if doSync then syncSequences execSeq seqRows
    else (([], false) : List SetvalStmt × Bool)
  ({ appliedDdlLsn := polled.1, buffered := swept.1 },
   { ddlExec := polled.2
     dmlResults := routed.2 ++ swept.2
     syncAttempts := synced.1
     syncInvoked := doSync
     crashed := synced.2
     feedbackSent := !synced.2 })

/-! Section: lemmas about the LSN codec. -/

/-- The accumulated base-16 value of a digit run, as the scanner
computes it. -/
def parseVal (acc : Nat) (l : List Char) : Nat :=
  l.foldl (fun a c => 16 * a + hexVal c) acc

lemma hexChar_props {d : Nat} (hd : d < 16) :
    isHexDigitCh (hexChar d) = true ∧ hexVal (hexChar d) = d ∧
    hexChar d ≠ '/' ∧ hexChar d ≠ '_' ∧ hexChar d ≠ '+' ∧ hexChar d ≠ '-' ∧
    hexChar d ≠ 'x' ∧ hexChar d ≠ 'X' ∧ isPySpace (hexChar d) = false := by
  interval_cases d <;> exact (by decide)

lemma toHexCore_ne_nil (n : Nat) : toHexCore n ≠ [] := by
  rw [toHexCore]
  split
  · simp
  · simp

lemma toHexCore_mem (n : Nat) : ∀ c ∈ toHexCore n, ∃ d, d < 16 ∧ c = hexChar d := by
  induction n using Nat.strong_induction_on with
  | _ n ih =>
    rw [toHexCore]
    split
    · intro c hc
      simp only [List.mem_singleton] at hc
      exact ⟨n, by omega, hc⟩
    · intro c hc
      rw [List.mem_append] at hc
      rcases hc with hc | hc
      · exact ih (n / 16) (Nat.div_lt_self (by omega) (by omega)) c hc
      · simp only [List.mem_singleton] at hc
        exact ⟨n % 16, Nat.mod_lt _ (by omega), hc⟩

lemma parseVal_toHexCore (n : Nat) : ∀ acc : Nat,
    parseVal acc (toHexCore n) = acc * 16 ^ (toHexCore n).length + n := by
  induction n using Nat.strong_induction_on with
  | _ n ih =>
    intro acc
    rw [toHexCore]
    split
    · rename_i h
      simp only [parseVal, List.foldl_cons, List.foldl_nil, List.length_singleton]
      rw [(hexChar_props h).2.1]
      ring
    · rename_i h
      have hdm := Nat.div_add_mod n 16
      have hrec := ih (n / 16) (Nat.div_lt_self (by omega) (by omega))
      simp only [parseVal, List.foldl_append, List.foldl_cons, List.foldl_nil,
        List.length_append, List.length_singleton]
      rw [show (List.foldl (fun a c => 16 * a + hexVal c) acc (toHexCore (n / 16)))
            = parseVal acc (toHexCore (n / 16)) from rfl, hrec acc]
      rw [(hexChar_props (show n % 16 < 16 from Nat.mod_lt _ (by omega))).2.1]
      rw [pow_succ]
      ring_nf
      omega

lemma hexDigitsVal_clean : ∀ (l : List Char) (acc : Nat),
    (∀ c ∈ l, isHexDigitCh c = true ∧ c ≠ '_') →
    hexDigitsVal acc l = some (parseVal acc l) := by
  intro l
  induction l with
  | nil => intro acc _; rfl
  | cons c cs ih =>
    intro acc h
    obtain ⟨h1, h2⟩ := h c (List.mem_cons_self c cs)
    rw [hexDigitsVal.eq_def]
    dsimp only
    rw [if_neg h2, if_pos h1]
    rw [show parseVal acc (c :: cs) = parseVal (16 * acc + hexVal c) cs from rfl]
    exact ih (16 * acc + hexVal c) (fun x hx => h x (List.mem_cons_of_mem c hx))

lemma parseHexBody_toHexCore (n : Nat) : parseHexBody (toHexCore n) = some n := by
  rcases hsh : toHexCore n with _ | ⟨c, cs⟩
  · exact absurd hsh (toHexCore_ne_nil n)
  · have hmem : ∀ x ∈ toHexCore n, isHexDigitCh x = true ∧ x ≠ '_' := by
      intro x hx
      obtain ⟨d, hd, hxd⟩ := toHexCore_mem n x hx
      subst hxd
      exact ⟨(hexChar_props hd).1, (hexChar_props hd).2.2.2.1⟩
    rw [hsh] at hmem
    obtain ⟨hc1, _⟩ := hmem c (List.mem_cons_self c cs)
    simp only [parseHexBody]
    rw [if_pos hc1]
    rw [hexDigitsVal_clean cs (hexVal c)
      (fun x hx => hmem x (List.mem_cons_of_mem c hx))]
    have hval : parseVal (hexVal c) cs = parseVal 0 (c :: cs) := by
      simp only [parseVal, List.foldl_cons]
      norm_num
    rw [hval, ← hsh, parseVal_toHexCore n 0]
    simp

lemma dropWhile_all_false {p : Char → Bool} :
    ∀ {m : List Char}, (∀ c ∈ m, p c = false) → List.dropWhile p m = m := by
  intro m h
  cases m with
  | nil => rfl
  | cons c cs =>
    rw [List.dropWhile_cons, h c (List.mem_cons_self c cs)]
    simp

lemma stripSpaces_clean {l : List Char} (h : ∀ c ∈ l, isPySpace c = false) :
    stripSpaces l = l := by
  unfold stripSpaces
  rw [dropWhile_all_false h,
    dropWhile_all_false (fun c hc => h c (List.mem_reverse.mp hc)),
    List.reverse_reverse]

lemma pyIntHexL_toHexCore (n : Nat) : pyIntHexL (toHexCore n) = some (n : Int) := by
  have hmem := toHexCore_mem n
  have hclean : stripSpaces (toHexCore n) = toHexCore n := by
    apply stripSpaces_clean
    intro c hc
    obtain ⟨d, hd, hcd⟩ := hmem c hc
    subst hcd
    exact (hexChar_props hd).2.2.2.2.2.2.2.2
  rcases hsh : toHexCore n with _ | ⟨c, cs⟩
  · exact absurd hsh (toHexCore_ne_nil n)
  · obtain ⟨d, hd, hcd⟩ := hmem c (hsh ▸ List.mem_cons_self c cs)
    have hplus : c ≠ '+' := hcd ▸ (hexChar_props hd).2.2.2.2.1
    have hminus : c ≠ '-' := hcd ▸ (hexChar_props hd).2.2.2.2.2.1
    have hbody : parseAfterSign (c :: cs) = parseHexBody (c :: cs) := by
      cases cs with
      | nil => rfl
      | cons c2 cs2 =>
        obtain ⟨d2, hd2, hcd2⟩ := hmem c2 (hsh ▸ List.mem_cons_of_mem c (List.mem_cons_self c2 cs2))
        have hx : c2 ≠ 'x' := hcd2 ▸ (hexChar_props hd2).2.2.2.2.2.2.1
        have hX : c2 ≠ 'X' := hcd2 ▸ (hexChar_props hd2).2.2.2.2.2.2.2.1
        simp only [parseAfterSign]
        rw [if_neg]
        simp [hx, hX]
    rw [hsh] at hclean
    simp only [pyIntHexL, hclean]
    rw [if_neg hplus, if_neg hminus, hbody, ← hsh, parseHexBody_toHexCore n]
    rfl

lemma splitSlash_ne_nil : ∀ l : List Char, splitSlash l ≠ [] := by
  intro l
  cases l with
  | nil => simp [splitSlash]
  | cons c rest =>
    simp only [splitSlash]
    split
    · simp
    · split <;> simp

lemma splitSlash_no_slash {l : List Char} (h : ∀ c ∈ l, c ≠ '/') :
    splitSlash l = [l] := by
  induction l with
  | nil => rfl
  | cons c rest ih =>
    have hc : c ≠ '/' := h c (List.mem_cons_self c rest)
    simp only [splitSlash]
    rw [if_neg hc, ih (fun x hx => h x (List.mem_cons_of_mem c hx))]

lemma splitSlash_append {a b : List Char} (ha : ∀ c ∈ a, c ≠ '/') :
    splitSlash (a ++ '/' :: b) = a :: splitSlash b := by
  induction a with
  | nil =>
    simp [splitSlash]
  | cons c as ih =>
    have hc : c ≠ '/' := ha c (List.mem_cons_self c as)
    have ih' := ih (fun x hx => ha x (List.mem_cons_of_mem c hx))
    simp only [List.cons_append, splitSlash]
    rw [if_neg hc]
    simp only [List.append_eq]
    rw [ih']

lemma toHexCore_single_zero {n : Nat} (h : toHexCore n = ['0']) : n = 0 := by
  have h1 := parseHexBody_toHexCore n
  rw [h] at h1
  have h2 : parseHexBody ['0'] = some 0 := by decide
  rw [h2] at h1
  exact (Option.some_inj.mp h1).symm

lemma splitSlash_length_count : ∀ l : List Char,
    (splitSlash l).length = l.count '/' + 1 := by
  intro l
  induction l with
  | nil => rfl
  | cons c rest ih =>
    by_cases hc : c = '/'
    · subst hc
      simp [splitSlash, ih]
    · simp only [splitSlash]
      rw [if_neg hc]
      rcases hsp : splitSlash rest with _ | ⟨h', t⟩
      · exact absurd hsp (splitSlash_ne_nil rest)
      · have hcnt : List.count '/' (c :: rest) = List.count '/' rest := by
          simp [List.count_cons, Ne.symm hc]
        have hlen : t.length + 1 = rest.count '/' + 1 := by
          rw [← ih, hsp, List.length_cons]
        simp only [List.length_cons, hcnt]
        omega

lemma intToLsnL_toList (x : Nat) : (int_to_lsn x).toList = intToLsnL x := rfl

/-- C2: the LSN codec round-trips: decoding the encoding of any LSN
integer gives the integer back, and `0` encodes to `"0/0"`.  (Proved
for every natural number, which covers every 64-bit unsigned value.) -/
theorem lsn_codec_roundtrip :
    (∀ x : Nat, lsn_to_int (int_to_lsn x) = some (x : Int)) ∧
    int_to_lsn 0 = "0/0" := by
  constructor
  · intro x
    show lsnToIntL (int_to_lsn x).toList = some (x : Int)
    rw [intToLsnL_toList]
    by_cases hx : x = 0
    · subst hx
      decide
    · unfold intToLsnL
      rw [if_neg hx]
      have hmemA := toHexCore_mem (x / 4294967296)
      have hmemB := toHexCore_mem (x % 4294967296)
      have hA : ∀ ch ∈ toHexCore (x / 4294967296), ch ≠ '/' := by
        intro ch hch
        obtain ⟨d, hd, hchd⟩ := hmemA ch hch
        exact hchd ▸ (hexChar_props hd).2.2.1
      have hB : ∀ ch ∈ toHexCore (x % 4294967296), ch ≠ '/' := by
        intro ch hch
        obtain ⟨d, hd, hchd⟩ := hmemB ch hch
        exact hchd ▸ (hexChar_props hd).2.2.1
      have hsp : splitSlash (toHexCore (x / 4294967296) ++ '/' :: toHexCore (x % 4294967296))
          = [toHexCore (x / 4294967296), toHexCore (x % 4294967296)] := by
        rw [splitSlash_append hA, splitSlash_no_slash hB]
      have hne : toHexCore (x / 4294967296) ++ '/' :: toHexCore (x % 4294967296)
          ≠ ['0', '/', '0'] := by
        intro heq
        have hsp2 := congrArg splitSlash heq
        rw [hsp] at hsp2
        have h00 : splitSlash ['0', '/', '0'] = [['0'], ['0']] := by decide
        rw [h00] at hsp2
        have hA0 : toHexCore (x / 4294967296) = ['0'] := by
          injection hsp2 with hh _
        have hB0 : toHexCore (x % 4294967296) = ['0'] := by
          injection hsp2 with _ ht
          injection ht with hh _
        have h1 := toHexCore_single_zero hA0
        have h2 := toHexCore_single_zero hB0
        omega
      unfold lsnToIntL
      rw [if_neg hne, hsp]
      dsimp only
      rw [pyIntHexL_toHexCore, pyIntHexL_toHexCore]
      dsimp only
      have hdm := Nat.div_add_mod x 4294967296
      simp only [Option.some.injEq]
      omega
  · decide

/-- C3: decoding fails (the exception propagates, no LSN is returned)
whenever the input does not contain exactly one `/`, or one of the two
halves is not accepted by the base-16 parser. -/
theorem lsn_decode_malformed (s : String)
    (h : s.toList.count '/' ≠ 1 ∨
      ∀ a b, splitSlash s.toList = [a, b] →
        pyIntHexL a = none ∨ pyIntHexL b = none) :
    lsn_to_int s = none := by
  unfold lsn_to_int lsnToIntL
  by_cases h00 : s.toList = ['0', '/', '0']
  · exfalso
    rw [h00] at h
    rcases h with h | h
    · exact h (by decide)
    · have hsp : splitSlash ['0', '/', '0'] = [['0'], ['0']] := by decide
      rcases h ['0'] ['0'] hsp with hbad | hbad <;> exact absurd hbad (by decide)
  · rw [if_neg h00]
    rcases hsp : splitSlash s.toList with _ | ⟨a, _ | ⟨b, _ | _⟩⟩
    · rfl
    · rfl
    · have hcount : s.toList.count '/' = 1 := by
        have := splitSlash_length_count s.toList
        rw [hsp] at this
        simp only [List.length_cons, List.length_nil] at this
        omega
      rcases h with h | h
      · exact absurd hcount h
      · dsimp only
        rcases h a b hsp with hn | hn
        · rw [hn]
        · rw [hn]
          rcases pyIntHexL a with _ | v <;> rfl
    · rfl

/-- Witness for C3 at the concrete slash-free input `"xyz"`. -/
theorem lsn_decode_malformed_witness :
    (("xyz").toList.count '/' ≠ 1 ∨
      ∀ a b, splitSlash ("xyz").toList = [a, b] →
        pyIntHexL a = none ∨ pyIntHexL b = none) ∧
    lsn_to_int ("xyz") = none :=
  ⟨Or.inl (by decide), lsn_decode_malformed ("xyz") (Or.inl (by decide))⟩

/-! Section: lemmas about the DDL replayer. -/

/-- The high-water LSN the replayer reaches after processing a block of
entries without a failure: the last entry's LSN, or the starting value
for an empty block. -/
def lastLsnD (since : Nat) (l : List DdlEntry) : Nat :=
  l.foldl (fun _ e => e.lsn) since

lemma lastLsnD_nil (since : Nat) : lastLsnD since [] = since := rfl

lemma lastLsnD_cons (since : Nat) (e : DdlEntry) (l : List DdlEntry) :
    lastLsnD since (e :: l) = lastLsnD e.lsn l := rfl

lemma lastLsnD_cases (since : Nat) : ∀ l : List DdlEntry,
    lastLsnD since l = since ∨ ∃ x ∈ l, lastLsnD since l = x.lsn := by
  intro l
  induction l generalizing since with
  | nil => exact Or.inl rfl
  | cons e rest ih =>
    rw [lastLsnD_cons]
    rcases ih e.lsn with h | ⟨x, hx, hh⟩
    · exact Or.inr ⟨e, List.mem_cons_self e rest, h⟩
    · exact Or.inr ⟨x, List.mem_cons_of_mem e hx, hh⟩

lemma lastLsnD_ge {l : List DdlEntry}
    (hp : l.Pairwise (fun a b => a.lsn < b.lsn)) :
    ∀ since : Nat, ∀ x ∈ l, x.lsn ≤ lastLsnD since l := by
  induction l with
  | nil => intro since x hx; simp at hx
  | cons e rest ih =>
    intro since x hx
    rw [lastLsnD_cons]
    rcases List.mem_cons.mp hx with hx | hx
    · subst hx
      rcases lastLsnD_cases x.lsn rest with h | ⟨y, hy, hh⟩
      · omega
      · have := (List.pairwise_cons.mp hp).1 y hy
        omega
    · exact ih (List.pairwise_cons.mp hp).2 e.lsn x hx

lemma executedOf_nil : executedOf [] = [] := rfl

lemma executedOf_cons_admin {e : DdlEntry} (h : isAdminDdl e.ddl = true)
    (l : List DdlEntry) : executedOf (e :: l) = executedOf l := by
  simp [executedOf, List.filter_cons, h]

lemma executedOf_cons_plain {e : DdlEntry} (h : isAdminDdl e.ddl = false)
    (l : List DdlEntry) : executedOf (e :: l) = e.ddl :: executedOf l := by
  simp [executedOf, List.filter_cons, h]

lemma executedOf_non_admin {l : List DdlEntry} :
    ∀ d ∈ executedOf l, isAdminDdl d = false := by
  intro d hd
  simp only [executedOf, List.mem_map, List.mem_filter] at hd
  obtain ⟨x, ⟨_, hx2⟩, hx3⟩ := hd
  subst hx3
  simpa using hx2

lemma pollAndApplyDdls_exec_non_admin (execOk : String → Bool) :
    ∀ (l : List DdlEntry) (since : Nat) (d : String),
      d ∈ (pollAndApplyDdls execOk since l).2 → isAdminDdl d = false := by
  intro l
  induction l with
  | nil =>
    intro since d hd
    simp [pollAndApplyDdls] at hd
  | cons e rest ih =>
    intro since d hd
    by_cases ha : isAdminDdl e.ddl = true
    · rw [show pollAndApplyDdls execOk since (e :: rest)
          = pollAndApplyDdls execOk e.lsn rest by
            simp only [pollAndApplyDdls, if_pos ha]] at hd
      exact ih e.lsn d hd
    · have ha' : isAdminDdl e.ddl = false := by
        simpa using ha
      by_cases hx : execOk e.ddl = true
      · simp only [pollAndApplyDdls, if_neg ha, if_pos hx] at hd
        rcases List.mem_cons.mp hd with hd | hd
        · subst hd; exact ha'
        · exact ih e.lsn d hd
      · simp only [pollAndApplyDdls, if_neg ha, if_neg hx] at hd
        rcases List.mem_singleton.mp hd with hd
        subst hd; exact ha'

lemma poll_append_ok (execOk : String → Bool) :
    ∀ (pre post : List DdlEntry) (since : Nat),
      (∀ x ∈ pre, isAdminDdl x.ddl = true ∨ execOk x.ddl = true) →
      pollAndApplyDdls execOk since (pre ++ post)
        = ((pollAndApplyDdls execOk (lastLsnD since pre) post).1,
           executedOf pre ++ (pollAndApplyDdls execOk (lastLsnD since pre) post).2) := by
  intro pre
  induction pre with
  | nil =>
    intro post since _
    simp [lastLsnD_nil, executedOf_nil]
  | cons e pre' ih =>
    intro post since hpre
    have htail : ∀ x ∈ pre', isAdminDdl x.ddl = true ∨ execOk x.ddl = true :=
      fun x hx => hpre x (List.mem_cons_of_mem e hx)
    rcases hpre e (List.mem_cons_self e pre') with ha | hx
    · rw [List.cons_append]
      rw [show pollAndApplyDdls execOk since (e :: (pre' ++ post))
          = pollAndApplyDdls execOk e.lsn (pre' ++ post) by
            simp only [pollAndApplyDdls, if_pos ha]]
      rw [ih post e.lsn htail, lastLsnD_cons, executedOf_cons_admin ha]
    · by_cases ha : isAdminDdl e.ddl = true
      · rw [List.cons_append]
        rw [show pollAndApplyDdls execOk since (e :: (pre' ++ post))
            = pollAndApplyDdls execOk e.lsn (pre' ++ post) by
              simp only [pollAndApplyDdls, if_pos ha]]
        rw [ih post e.lsn htail, lastLsnD_cons, executedOf_cons_admin ha]
      · have ha' : isAdminDdl e.ddl = false := by simpa using ha
        rw [List.cons_append]
        rw [show pollAndApplyDdls execOk since (e :: (pre' ++ post))
            = ((pollAndApplyDdls execOk e.lsn (pre' ++ post)).1,
               e.ddl :: (pollAndApplyDdls execOk e.lsn (pre' ++ post)).2) by
              simp only [pollAndApplyDdls, if_neg ha, if_pos hx]]
        rw [ih post e.lsn htail, lastLsnD_cons, executedOf_cons_plain ha']
        simp

/-- C4: DDL replay is fail-stop.  If the fetched entries are a prefix
`pre` that the replayer gets through (each entry administrative or
successfully executed), then a non-administrative entry `e` whose
execution fails, then anything: the statements executed against the
replica are exactly the non-administrative statements of `pre` followed
by the one failed attempt at `e` (nothing after `e` is attempted), and
the returned high-water LSN is the last LSN reached before `e` — at
least every LSN of `pre`, and strictly below `e.lsn`. -/
theorem ddl_replay_fail_stop (execOk : String → Bool) (since : Nat)
    (pre post : List DdlEntry) (e : DdlEntry)
    (hpre : ∀ x ∈ pre, isAdminDdl x.ddl = true ∨ execOk x.ddl = true)
    (headmin : isAdminDdl e.ddl = false) (hefail : execOk e.ddl = false)
    (hsorted : (pre ++ e :: post).Pairwise (fun a b => a.lsn < b.lsn))
    (hsince : ∀ x ∈ pre ++ e :: post, since < x.lsn) :
    (pollAndApplyDdls execOk since (pre ++ e :: post)).2 = executedOf pre ++ [e.ddl]
    ∧ (pollAndApplyDdls execOk since (pre ++ e :: post)).1 = lastLsnD since pre
    ∧ (pollAndApplyDdls execOk since (pre ++ e :: post)).1 < e.lsn
    ∧ ∀ x ∈ pre, x.lsn ≤ (pollAndApplyDdls execOk since (pre ++ e :: post)).1 := by
  have hcont : pollAndApplyDdls execOk (lastLsnD since pre) (e :: post)
      = (lastLsnD since pre, [e.ddl]) := by
    simp only [pollAndApplyDdls, if_neg (by simp [headmin] : ¬isAdminDdl e.ddl = true),
      if_neg (by simp [hefail] : ¬execOk e.ddl = true)]
  have hmain := poll_append_ok execOk pre (e :: post) since hpre
  rw [hcont] at hmain
  have hlast_lt : lastLsnD since pre < e.lsn := by
    rcases lastLsnD_cases since pre with h | ⟨x, hx, hh⟩
    · rw [h]
      exact hsince e (List.mem_append_right pre (List.mem_cons_self e post))
    · rw [hh]
      have hcross := (List.pairwise_append.mp hsorted).2.2
      exact hcross x hx e (List.mem_cons_self e post)
  have hpre_sorted : pre.Pairwise (fun a b => a.lsn < b.lsn) :=
    (List.pairwise_append.mp hsorted).1
  refine ⟨?_, ?_, ?_, ?_⟩
  · rw [hmain]
  · rw [hmain]
  · rw [hmain]
    exact hlast_lt
  · intro x hx
    rw [hmain]
    exact lastLsnD_ge hpre_sorted since x hx

/-- Witness for C4: a successful entry at LSN 5, a failing entry at
LSN 9, a later entry at LSN 11 that is never attempted. -/
theorem ddl_replay_fail_stop_witness :
    (pollAndApplyDdls (fun s => !(s == "BAD")) 0
        ([⟨5, "CREATE A"⟩] ++ ⟨9, "BAD"⟩ :: [⟨11, "LATER"⟩])).2
      = executedOf [⟨5, "CREATE A"⟩] ++ ["BAD"]
    ∧ (pollAndApplyDdls (fun s => !(s == "BAD")) 0
        ([⟨5, "CREATE A"⟩] ++ ⟨9, "BAD"⟩ :: [⟨11, "LATER"⟩])).1 < 9 :=
  ⟨(ddl_replay_fail_stop (fun s => !(s == "BAD")) 0 [⟨5, "CREATE A"⟩] [⟨11, "LATER"⟩]
      ⟨9, "BAD"⟩ (by decide) (by decide) (by decide) (by decide) (by decide)).1,
   (ddl_replay_fail_stop (fun s => !(s == "BAD")) 0 [⟨5, "CREATE A"⟩] [⟨11, "LATER"⟩]
      ⟨9, "BAD"⟩ (by decide) (by decide) (by decide) (by decide) (by decide)).2.2.1⟩

/-- C5: an administrative entry (statement text mentioning the DDL-log
table or publications) is skipped but counted as applied: once the
replayer reaches it, the run continues exactly as a run starting from
its LSN — the high-water mark advances to `e.lsn` — and its statement
is never executed against the replica. -/
theorem ddl_admin_skip (execOk : String → Bool) (since : Nat)
    (pre post : List DdlEntry) (e : DdlEntry)
    (hpre : ∀ x ∈ pre, isAdminDdl x.ddl = true ∨ execOk x.ddl = true)
    (he : isAdminDdl e.ddl = true) :
    pollAndApplyDdls execOk since (pre ++ e :: post)
      = ((pollAndApplyDdls execOk e.lsn post).1,
         executedOf pre ++ (pollAndApplyDdls execOk e.lsn post).2)
    ∧ e.ddl ∉ (pollAndApplyDdls execOk since (pre ++ e :: post)).2 := by
  have hcont : pollAndApplyDdls execOk (lastLsnD since pre) (e :: post)
      = pollAndApplyDdls execOk e.lsn post := by
    simp only [pollAndApplyDdls, if_pos he]
  have hmain := poll_append_ok execOk pre (e :: post) since hpre
  rw [hcont] at hmain
  refine ⟨hmain, ?_⟩
  rw [hmain]
  intro hmem
  rcases List.mem_append.mp hmem with hmem | hmem
  · rw [executedOf_non_admin e.ddl hmem] at he
    exact Bool.false_ne_true he
  · rw [pollAndApplyDdls_exec_non_admin execOk post e.lsn e.ddl hmem] at he
    exact Bool.false_ne_true he

/-- Witness for C5: a publication-management entry at LSN 5 after a
plain entry at LSN 3; the run ends with high-water mark 5 and the
administrative statement is never executed. -/
theorem ddl_admin_skip_witness :
    (pollAndApplyDdls (fun _ => true) 0
        ([⟨3, "CREATE TABLE a (x int)"⟩] ++ ⟨5, "ALTER PUBLICATION p ADD TABLE a"⟩ :: [])).1 = 5
    ∧ "ALTER PUBLICATION p ADD TABLE a"
        ∉ (pollAndApplyDdls (fun _ => true) 0
            ([⟨3, "CREATE TABLE a (x int)"⟩] ++ ⟨5, "ALTER PUBLICATION p ADD TABLE a"⟩ :: [])).2 :=
  ⟨by
    rw [(ddl_admin_skip (fun _ => true) 0 [⟨3, "CREATE TABLE a (x int)"⟩] []
      ⟨5, "ALTER PUBLICATION p ADD TABLE a"⟩ (by decide) (by decide)).1]
    rfl,
   (ddl_admin_skip (fun _ => true) 0 [⟨3, "CREATE TABLE a (x int)"⟩] []
      ⟨5, "ALTER PUBLICATION p ADD TABLE a"⟩ (by decide) (by decide)).2⟩

/-! Section: theorems about the DML applier. -/

/-- C6 counterexample: an update change whose `oldkeys` lists are
present but *empty* is not rejected before reaching the replica:
`apply_dml` builds a statement with an empty `WHERE` clause and
executes it (the execution's failure is then caught and logged). -/
theorem apply_dml_empty_oldkeys_executes :
    applyDml (fun _ _ => false) ⟨"t", "update", ["a"], ["1"], some ⟨[], []⟩⟩
      = DmlResult.executed ("UPDATE t SET a = %s WHERE ") (["1"]) false := by
  decide

/-- C6 (amended): for an update or delete change, only an *absent*
`oldkeys` map makes `apply_dml` fail before any statement reaches the
replica (the caught `KeyError` path); whenever `oldkeys` is present —
even with empty key lists — a statement is built and executed against
the replica. -/
theorem apply_dml_oldkeys (execOk : String → List String → Bool) (c : RowChange)
    (hk : c.kind = "update" ∨ c.kind = "delete") :
    (c.oldkeys = none → applyDml execOk c = DmlResult.keyError)
    ∧ ∀ kn kv : List String, c.oldkeys = some ⟨kn, kv⟩ →
        (stripOk (applyDml execOk c)).isSome = true := by
  rcases hk with hk | hk
  · constructor
    · intro ho
      simp [applyDml, hk, ho]
    · intro kn kv ho
      unfold applyDml
      rw [hk, ho]
      rw [if_neg (by decide : ¬("update" : String) = "insert"), if_pos rfl]
      rfl
  · constructor
    · intro ho
      simp [applyDml, hk, ho]
    · intro kn kv ho
      unfold applyDml
      rw [hk, ho]
      rw [if_neg (by decide : ¬("delete" : String) = "insert"),
        if_neg (by decide : ¬("delete" : String) = "update"), if_pos rfl]
      rfl

/-- Witness for C6's amended theorem: an update change with the
`oldkeys` key absent takes the `KeyError` path. -/
theorem apply_dml_oldkeys_witness :
    (RowChange.kind ⟨"t", "update", ["a"], ["1"], none⟩ = "update"
      ∨ RowChange.kind ⟨"t", "update", ["a"], ["1"], none⟩ = "delete")
    ∧ applyDml (fun _ _ => false) ⟨"t", "update", ["a"], ["1"], none⟩
        = DmlResult.keyError :=
  ⟨Or.inl rfl,
   (apply_dml_oldkeys (fun _ _ => false) ⟨"t", "update", ["a"], ["1"], none⟩
      (Or.inl rfl)).1 rfl⟩

/-! Section: theorems about the sequence synchronizer. -/

/-- The catalog rows used in the C7 scenario. -/
def c7Row1 : SeqRow := ⟨"public", "t1", "id", "t1_id_seq"⟩

def c7Row2 : SeqRow := ⟨"public", "t2", "id", "t2_id_seq"⟩

/-- The C7 oracle: the `setval` for `public.t1_id_seq` raises, every
other statement succeeds. -/
def c7Exec : SetvalStmt → Bool :=
  fun st => !(st.seqName == "public.t1_id_seq")

/-- C7 counterexample: with two sequences fetched and the first
`setval` failing, `sync_sequences` never attempts the second sequence
and the exception aborts the message: `handle_message` crashes before
`send_feedback`.  This refutes the claim that a per-sequence failure
is isolated. -/
theorem sync_failure_aborts_message :
    (handleMessage (fun _ => true) (fun _ _ => true) c7Exec [c7Row1, c7Row2]
        [] ⟨0, []⟩ ⟨10, [⟨"t", "insert", ["x"], ["1"], none⟩]⟩).2.crashed = true
    ∧ (handleMessage (fun _ => true) (fun _ _ => true) c7Exec [c7Row1, c7Row2]
        [] ⟨0, []⟩ ⟨10, [⟨"t", "insert", ["x"], ["1"], none⟩]⟩).2.feedbackSent = false
    ∧ setvalOf c7Row2
        ∉ (handleMessage (fun _ => true) (fun _ _ => true) c7Exec [c7Row1, c7Row2]
            [] ⟨0, []⟩ ⟨10, [⟨"t", "insert", ["x"], ["1"], none⟩]⟩).2.syncAttempts := by
  decide

/-- C7 (amended): `sync_sequences` has no per-sequence error handling.
When the `setval` for row `r` fails after the rows of `pre` succeeded,
the attempted statements stop at `r` — the remaining rows are never
attempted — and the exception propagates to the caller, aborting the
processing of the current message. -/
theorem sync_sequences_fail_propagates (execOk : SetvalStmt → Bool)
    (pre post : List SeqRow) (r : SeqRow)
    (hpre : ∀ x ∈ pre, execOk (setvalOf x) = true)
    (hr : execOk (setvalOf r) = false) :
    syncSequences execOk (pre ++ r :: post)
      = (pre.map setvalOf ++ [setvalOf r], true) := by
  induction pre with
  | nil =>
    simp [syncSequences, hr]
  | cons x pre' ih =>
    have hx : execOk (setvalOf x) = true := hpre x (List.mem_cons_self x pre')
    rw [List.cons_append]
    rw [show syncSequences execOk (x :: (pre' ++ r :: post))
        = (setvalOf x :: (syncSequences execOk (pre' ++ r :: post)).1,
           (syncSequences execOk (pre' ++ r :: post)).2) by
          simp only [syncSequences, if_pos hx]]
    rw [ih (fun y hy => hpre y (List.mem_cons_of_mem x hy))]
    simp

/-- Witness for C7's amended theorem at the concrete two-row scenario:
the failing first row is attempted, the second row never is. -/
theorem sync_sequences_fail_propagates_witness :
    (∀ x ∈ ([] : List SeqRow), c7Exec (setvalOf x) = true)
    ∧ c7Exec (setvalOf c7Row1) = false
    ∧ syncSequences c7Exec ([] ++ c7Row1 :: [c7Row2])
        = (([] : List SeqRow).map setvalOf ++ [setvalOf c7Row1], true) :=
  ⟨by decide, by decide,
   sync_sequences_fail_propagates c7Exec [] [c7Row2] c7Row1 (by decide) (by decide)⟩

/-! Section: lemmas about the per-message coordinator. -/

lemma hmState_appliedDdlLsn (execDdl : String → Bool)
    (execDml : String → List String → Bool) (execSeq : SetvalStmt → Bool)
    (seqRows : List SeqRow) (ddlLog : List DdlEntry) (st : ConsumerState)
    (msg : WalMessage) :
    (handleMessage execDdl execDml execSeq seqRows ddlLog st msg).1.appliedDdlLsn
      = (pollAndApplyDdls execDdl st.appliedDdlLsn
          (ddlLog.filter (fun e => st.appliedDdlLsn < e.lsn))).1 := rfl

lemma hmState_buffered (execDdl : String → Bool)
    (execDml : String → List String → Bool) (execSeq : SetvalStmt → Bool)
    (seqRows : List SeqRow) (ddlLog : List DdlEntry) (st : ConsumerState)
    (msg : WalMessage) :
    (handleMessage execDdl execDml execSeq seqRows ddlLog st msg).1.buffered
      = (if (st.buffered ++ (routeChanges execDml msg.dataStart
              (pollAndApplyDdls execDdl st.appliedDdlLsn
                (ddlLog.filter (fun e => st.appliedDdlLsn < e.lsn))).1
              msg.changes).1).isEmpty
          then (([], []) : List (Nat × RowChange) × List DmlResult)
          else sweepBuffer execDml msg.dataStart
            (st.buffered ++ (routeChanges execDml msg.dataStart
              (pollAndApplyDdls execDdl st.appliedDdlLsn
                (ddlLog.filter (fun e => st.appliedDdlLsn < e.lsn))).1
              msg.changes).1)).1 := rfl

lemma hmOut_ddlExec (execDdl : String → Bool)
    (execDml : String → List String → Bool) (execSeq : SetvalStmt → Bool)
    (seqRows : List SeqRow) (ddlLog : List DdlEntry) (st : ConsumerState)
    (msg : WalMessage) :
    (handleMessage execDdl execDml execSeq seqRows ddlLog st msg).2.ddlExec
      = (pollAndApplyDdls execDdl st.appliedDdlLsn
          (ddlLog.filter (fun e => st.appliedDdlLsn < e.lsn))).2 := rfl

lemma hmOut_dmlResults (execDdl : String → Bool)
    (execDml : String → List String → Bool) (execSeq : SetvalStmt → Bool)
    (seqRows : List SeqRow) (ddlLog : List DdlEntry) (st : ConsumerState)
    (msg : WalMessage) :
    (handleMessage execDdl execDml execSeq seqRows ddlLog st msg).2.dmlResults
      = (routeChanges execDml msg.dataStart
          (pollAndApplyDdls execDdl st.appliedDdlLsn
            (ddlLog.filter (fun e => st.appliedDdlLsn < e.lsn))).1
          msg.changes).2
        ++ (if (st.buffered ++ (routeChanges execDml msg.dataStart
              (pollAndApplyDdls execDdl st.appliedDdlLsn
                (ddlLog.filter (fun e => st.appliedDdlLsn < e.lsn))).1
              msg.changes).1).isEmpty
          then (([], []) : List (Nat × RowChange) × List DmlResult)
          else sweepBuffer execDml msg.dataStart
            (st.buffered ++ (routeChanges execDml msg.dataStart
              (pollAndApplyDdls execDdl st.appliedDdlLsn
                (ddlLog.filter (fun e => st.appliedDdlLsn < e.lsn))).1
              msg.changes).1)).2 := rfl

lemma hmOut_syncAttempts (execDdl : String → Bool)
    (execDml : String → List String → Bool) (execSeq : SetvalStmt → Bool)
    (seqRows : List SeqRow) (ddlLog : List DdlEntry) (st : ConsumerState)
    (msg : WalMessage) :
    (handleMessage execDdl execDml execSeq seqRows ddlLog st msg).2.syncAttempts
      = (if !msg.changes.isEmpty then syncSequences execSeq seqRows
          else (([], false) : List SetvalStmt × Bool)).1 := rfl

lemma hmOut_syncInvoked (execDdl : String → Bool)
    (execDml : String → List String → Bool) (execSeq : SetvalStmt → Bool)
    (seqRows : List SeqRow) (ddlLog : List DdlEntry) (st : ConsumerState)
    (msg : WalMessage) :
    (handleMessage execDdl execDml execSeq seqRows ddlLog st msg).2.syncInvoked
      = !msg.changes.isEmpty := rfl

lemma hmOut_crashed (execDdl : String → Bool)
    (execDml : String → List String → Bool) (execSeq : SetvalStmt → Bool)
    (seqRows : List SeqRow) (ddlLog : List DdlEntry) (st : ConsumerState)
    (msg : WalMessage) :
    (handleMessage execDdl execDml execSeq seqRows ddlLog st msg).2.crashed
      = (if !msg.changes.isEmpty then syncSequences execSeq seqRows
          else (([], false) : List SetvalStmt × Bool)).2 := rfl

lemma hmOut_feedbackSent (execDdl : String → Bool)
    (execDml : String → List String → Bool) (execSeq : SetvalStmt → Bool)
    (seqRows : List SeqRow) (ddlLog : List DdlEntry) (st : ConsumerState)
    (msg : WalMessage) :
    (handleMessage execDdl execDml execSeq seqRows ddlLog st msg).2.feedbackSent
      = !(if !msg.changes.isEmpty then syncSequences execSeq seqRows
          else (([], false) : List SetvalStmt × Bool)).2 := rfl

lemma routeChanges_fst_lsn (execDml : String → List String → Bool)
    (dataStart appliedDdl : Nat) :
    ∀ cs : List RowChange, ∀ p ∈ (routeChanges execDml dataStart appliedDdl cs).1,
      p.1 = dataStart := by
  intro cs
  induction cs with
  | nil => intro p hp; simp [routeChanges] at hp
  | cons c rest ih =>
    intro p hp
    by_cases ht : c.table = "translicate_ddl_log"
    · rw [show routeChanges execDml dataStart appliedDdl (c :: rest)
          = routeChanges execDml dataStart appliedDdl rest by
            simp only [routeChanges, if_pos ht]] at hp
      exact ih p hp
    · by_cases hgt : dataStart > appliedDdl
      · simp only [routeChanges, if_neg ht, if_pos hgt] at hp
        rcases List.mem_cons.mp hp with hp | hp
        · rw [hp]
        · exact ih p hp
      · simp only [routeChanges, if_neg ht, if_neg hgt] at hp
        exact ih p hp

lemma routeChanges_len (execDml : String → List String → Bool)
    (dataStart appliedDdl : Nat) :
    ∀ cs : List RowChange,
      (routeChanges execDml dataStart appliedDdl cs).1.length
        + (routeChanges execDml dataStart appliedDdl cs).2.length
      = (cs.filter (fun c => !(c.table == "translicate_ddl_log"))).length := by
  intro cs
  induction cs with
  | nil => rfl
  | cons c rest ih =>
    by_cases ht : c.table = "translicate_ddl_log"
    · have hb : (c.table == "translicate_ddl_log") = true := beq_iff_eq.mpr ht
      simp only [routeChanges, if_pos ht, List.filter_cons, hb, Bool.not_true]
      exact ih
    · have hb : (c.table == "translicate_ddl_log") = false := by
        simp [ht]
      have hfl : (List.filter (fun x => !(x.table == "translicate_ddl_log")) (c :: rest)).length
          = (List.filter (fun x => !(x.table == "translicate_ddl_log")) rest).length + 1 := by
        simp [List.filter_cons, hb]
      by_cases hgt : dataStart > appliedDdl
      · simp only [routeChanges, if_neg ht, if_pos hgt, List.length_cons, hfl]
        omega
      · simp only [routeChanges, if_neg ht, if_neg hgt, List.length_cons, hfl]
        omega

lemma applyDml_stripOk (d1 d2 : String → List String → Bool) (c : RowChange) :
    stripOk (applyDml d1 c) = stripOk (applyDml d2 c) := by
  unfold applyDml
  by_cases h1 : c.kind = "insert"
  · simp [h1, stripOk]
  · by_cases h2 : c.kind = "update"
    · rcases ho : c.oldkeys with _ | ok_
      · simp [h1, h2, ho, stripOk]
      · simp [h1, h2, ho, stripOk]
    · by_cases h3 : c.kind = "delete"
      · rcases ho : c.oldkeys with _ | ok_ <;> simp [h1, h2, h3, ho, stripOk]
      · simp [h1, h2, h3, stripOk]

lemma routeChanges_indep (d1 d2 : String → List String → Bool)
    (dataStart appliedDdl : Nat) :
    ∀ cs : List RowChange,
      (routeChanges d1 dataStart appliedDdl cs).1
        = (routeChanges d2 dataStart appliedDdl cs).1
      ∧ (routeChanges d1 dataStart appliedDdl cs).2.map stripOk
        = (routeChanges d2 dataStart appliedDdl cs).2.map stripOk := by
  intro cs
  induction cs with
  | nil => exact ⟨rfl, rfl⟩
  | cons c rest ih =>
    by_cases ht : c.table = "translicate_ddl_log"
    · simpa only [routeChanges, if_pos ht] using ih
    · by_cases hgt : dataStart > appliedDdl
      · simp only [routeChanges, if_neg ht, if_pos hgt, List.map_cons]
        exact ⟨by rw [ih.1], ih.2⟩
      · simp only [routeChanges, if_neg ht, if_neg hgt, List.map_cons]
        exact ⟨ih.1, by rw [applyDml_stripOk d1 d2 c, ih.2]⟩

lemma sweepBuffer_all_le (execDml : String → List String → Bool) (dataStart : Nat) :
    ∀ l : List (Nat × RowChange), (∀ p ∈ l, p.1 ≤ dataStart) →
      sweepBuffer execDml dataStart l
        = ([], l.map (fun p => applyDml execDml p.2)) := by
  intro l
  induction l with
  | nil => intro _; rfl
  | cons p rest ih =>
    intro h
    have hp : p.1 ≤ dataStart := h p (List.mem_cons_self p rest)
    simp only [sweepBuffer, if_pos hp, List.map_cons]
    rw [ih (fun q hq => h q (List.mem_cons_of_mem p hq))]

lemma sweepBuffer_indep (d1 d2 : String → List String → Bool) (dataStart : Nat) :
    ∀ l : List (Nat × RowChange),
      (sweepBuffer d1 dataStart l).1 = (sweepBuffer d2 dataStart l).1
      ∧ (sweepBuffer d1 dataStart l).2.map stripOk
        = (sweepBuffer d2 dataStart l).2.map stripOk := by
  intro l
  induction l with
  | nil => exact ⟨rfl, rfl⟩
  | cons p rest ih =>
    by_cases hp : p.1 ≤ dataStart
    · simp only [sweepBuffer, if_pos hp, List.map_cons]
      exact ⟨ih.1, by rw [applyDml_stripOk d1 d2 p.2, ih.2]⟩
    · simp only [sweepBuffer, if_neg hp, List.map_cons]
      exact ⟨by rw [ih.1], ih.2⟩

lemma consumerState_ext {s t : ConsumerState}
    (h1 : s.appliedDdlLsn = t.appliedDdlLsn) (h2 : s.buffered = t.buffered) :
    s = t := by
  cases s
  cases t
  cases h1
  cases h2
  rfl

/-- C8: a DML failure is invisible to control flow.  Under any two
DML-success oracles the consumer's state transition, the attempted DML
statements (success flags erased), the DDL and sequence activity, the
crash status and the acknowledgment are identical: a failed
insert/update/delete is dropped (never buffered or retried), every
remaining change of the message is still processed, and a DML failure
never halts the stream. -/
theorem dml_failure_log_and_continue (execDdl : String → Bool)
    (d1 d2 : String → List String → Bool) (execSeq : SetvalStmt → Bool)
    (seqRows : List SeqRow) (ddlLog : List DdlEntry)
    (st : ConsumerState) (msg : WalMessage) :
    (handleMessage execDdl d1 execSeq seqRows ddlLog st msg).1
      = (handleMessage execDdl d2 execSeq seqRows ddlLog st msg).1
    ∧ (handleMessage execDdl d1 execSeq seqRows ddlLog st msg).2.dmlResults.map stripOk
      = (handleMessage execDdl d2 execSeq seqRows ddlLog st msg).2.dmlResults.map stripOk
    ∧ (handleMessage execDdl d1 execSeq seqRows ddlLog st msg).2.ddlExec
      = (handleMessage execDdl d2 execSeq seqRows ddlLog st msg).2.ddlExec
    ∧ (handleMessage execDdl d1 execSeq seqRows ddlLog st msg).2.syncAttempts
      = (handleMessage execDdl d2 execSeq seqRows ddlLog st msg).2.syncAttempts
    ∧ (handleMessage execDdl d1 execSeq seqRows ddlLog st msg).2.crashed
      = (handleMessage execDdl d2 execSeq seqRows ddlLog st msg).2.crashed
    ∧ (handleMessage execDdl d1 execSeq seqRows ddlLog st msg).2.feedbackSent
      = (handleMessage execDdl d2 execSeq seqRows ddlLog st msg).2.feedbackSent := by
  have hr := routeChanges_indep d1 d2 msg.dataStart
      (pollAndApplyDdls execDdl st.appliedDdlLsn
        (ddlLog.filter (fun e => st.appliedDdlLsn < e.lsn))).1 msg.changes
  have hbuf : st.buffered ++ (routeChanges d1 msg.dataStart
        (pollAndApplyDdls execDdl st.appliedDdlLsn
          (ddlLog.filter (fun e => st.appliedDdlLsn < e.lsn))).1 msg.changes).1
      = st.buffered ++ (routeChanges d2 msg.dataStart
        (pollAndApplyDdls execDdl st.appliedDdlLsn
          (ddlLog.filter (fun e => st.appliedDdlLsn < e.lsn))).1 msg.changes).1 := by
    rw [hr.1]
  have hsw := sweepBuffer_indep d1 d2 msg.dataStart
      (st.buffered ++ (routeChanges d2 msg.dataStart
        (pollAndApplyDdls execDdl st.appliedDdlLsn
          (ddlLog.filter (fun e => st.appliedDdlLsn < e.lsn))).1 msg.changes).1)
  have hswept : (if (st.buffered ++ (routeChanges d1 msg.dataStart
          (pollAndApplyDdls execDdl st.appliedDdlLsn
            (ddlLog.filter (fun e => st.appliedDdlLsn < e.lsn))).1 msg.changes).1).isEmpty
        then (([], []) : List (Nat × RowChange) × List DmlResult)
        else sweepBuffer d1 msg.dataStart
          (st.buffered ++ (routeChanges d1 msg.dataStart
            (pollAndApplyDdls execDdl st.appliedDdlLsn
              (ddlLog.filter (fun e => st.appliedDdlLsn < e.lsn))).1 msg.changes).1)).1
      = (if (st.buffered ++ (routeChanges d2 msg.dataStart
          (pollAndApplyDdls execDdl st.appliedDdlLsn
            (ddlLog.filter (fun e => st.appliedDdlLsn < e.lsn))).1 msg.changes).1).isEmpty
        then (([], []) : List (Nat × RowChange) × List DmlResult)
        else sweepBuffer d2 msg.dataStart
          (st.buffered ++ (routeChanges d2 msg.dataStart
            (pollAndApplyDdls execDdl st.appliedDdlLsn
              (ddlLog.filter (fun e => st.appliedDdlLsn < e.lsn))).1 msg.changes).1)).1 := by
    rw [hbuf]
    by_cases hemp : (st.buffered ++ (routeChanges d2 msg.dataStart
        (pollAndApplyDdls execDdl st.appliedDdlLsn
          (ddlLog.filter (fun e => st.appliedDdlLsn < e.lsn))).1 msg.changes).1).isEmpty
    · rw [if_pos hemp, if_pos hemp]
    · rw [if_neg hemp, if_neg hemp]
      exact hsw.1
  have hswept2 : (if (st.buffered ++ (routeChanges d1 msg.dataStart
          (pollAndApplyDdls execDdl st.appliedDdlLsn
            (ddlLog.filter (fun e => st.appliedDdlLsn < e.lsn))).1 msg.changes).1).isEmpty
        then (([], []) : List (Nat × RowChange) × List DmlResult)
        else sweepBuffer d1 msg.dataStart
          (st.buffered ++ (routeChanges d1 msg.dataStart
            (pollAndApplyDdls execDdl st.appliedDdlLsn
              (ddlLog.filter (fun e => st.appliedDdlLsn < e.lsn))).1 msg.changes).1)).2.map stripOk
      = (if (st.buffered ++ (routeChanges d2 msg.dataStart
          (pollAndApplyDdls execDdl st.appliedDdlLsn
            (ddlLog.filter (fun e => st.appliedDdlLsn < e.lsn))).1 msg.changes).1).isEmpty
        then (([], []) : List (Nat × RowChange) × List DmlResult)
        else sweepBuffer d2 msg.dataStart
          (st.buffered ++ (routeChanges d2 msg.dataStart
            (pollAndApplyDdls execDdl st.appliedDdlLsn
              (ddlLog.filter (fun e => st.appliedDdlLsn < e.lsn))).1 msg.changes).1)).2.map stripOk := by
    rw [hbuf]
    by_cases hemp : (st.buffered ++ (routeChanges d2 msg.dataStart
        (pollAndApplyDdls execDdl st.appliedDdlLsn
          (ddlLog.filter (fun e => st.appliedDdlLsn < e.lsn))).1 msg.changes).1).isEmpty
    · rw [if_pos hemp, if_pos hemp]
    · rw [if_neg hemp, if_neg hemp]
      exact hsw.2
  refine ⟨?_, ?_, rfl, rfl, rfl, rfl⟩
  · exact consumerState_ext rfl
      (by rw [hmState_buffered, hmState_buffered]; exact hswept)
  · rw [hmOut_dmlResults, hmOut_dmlResults, List.map_append, List.map_append, hr.2]
    rw [hswept2]

/-- C9: the buffer drains completely on every message.  If every
already-buffered entry has LSN at most the incoming message's LSN
(guaranteed by strictly increasing stream LSNs, since entries are
buffered with their message's LSN), the buffer is empty when
`handle_message` returns — no change is deferred across messages — and
the attempted DMLs number exactly the non-noise changes of this
message plus the previously buffered entries. -/
theorem buffer_drains (execDdl : String → Bool)
    (execDml : String → List String → Bool) (execSeq : SetvalStmt → Bool)
    (seqRows : List SeqRow) (ddlLog : List DdlEntry)
    (st : ConsumerState) (msg : WalMessage)
    (hold : ∀ p ∈ st.buffered, p.1 ≤ msg.dataStart) :
    (handleMessage execDdl execDml execSeq seqRows ddlLog st msg).1.buffered = []
    ∧ (handleMessage execDdl execDml execSeq seqRows ddlLog st msg).2.dmlResults.length
      = (msg.changes.filter (fun c => !(c.table == "translicate_ddl_log"))).length
        + st.buffered.length := by
  have hall : ∀ p ∈ st.buffered ++ (routeChanges execDml msg.dataStart
      (pollAndApplyDdls execDdl st.appliedDdlLsn
        (ddlLog.filter (fun e => st.appliedDdlLsn < e.lsn))).1 msg.changes).1,
      p.1 ≤ msg.dataStart := by
    intro p hp
    rcases List.mem_append.mp hp with hp | hp
    · exact hold p hp
    · rw [routeChanges_fst_lsn execDml msg.dataStart
        (pollAndApplyDdls execDdl st.appliedDdlLsn
          (ddlLog.filter (fun e => st.appliedDdlLsn < e.lsn))).1 msg.changes p hp]
  have hlen := routeChanges_len execDml msg.dataStart
      (pollAndApplyDdls execDdl st.appliedDdlLsn
        (ddlLog.filter (fun e => st.appliedDdlLsn < e.lsn))).1 msg.changes
  constructor
  · rw [hmState_buffered]
    by_cases hemp : (st.buffered ++ (routeChanges execDml msg.dataStart
        (pollAndApplyDdls execDdl st.appliedDdlLsn
          (ddlLog.filter (fun e => st.appliedDdlLsn < e.lsn))).1 msg.changes).1).isEmpty
    · rw [if_pos hemp]
    · rw [if_neg hemp, sweepBuffer_all_le execDml msg.dataStart _ hall]
  · rw [hmOut_dmlResults, List.length_append]
    by_cases hemp : (st.buffered ++ (routeChanges execDml msg.dataStart
        (pollAndApplyDdls execDdl st.appliedDdlLsn
          (ddlLog.filter (fun e => st.appliedDdlLsn < e.lsn))).1 msg.changes).1).isEmpty
    · have hnil : st.buffered ++ (routeChanges execDml msg.dataStart
          (pollAndApplyDdls execDdl st.appliedDdlLsn
            (ddlLog.filter (fun e => st.appliedDdlLsn < e.lsn))).1 msg.changes).1 = [] := by
        exact List.isEmpty_iff.mp hemp
      obtain ⟨hb0, hr0⟩ := List.append_eq_nil.mp hnil
      rw [if_pos hemp]
      rw [hr0] at hlen
      simp only [List.length_nil] at hlen
      rw [hb0]
      simp only [List.length_nil]
      omega
    · rw [if_neg hemp, sweepBuffer_all_le execDml msg.dataStart _ hall]
      simp only [List.length_map, List.length_append]
      omega

/-- Witness for C9: an old buffered entry at LSN 5 and a fresh change
at message LSN 10; afterwards the buffer is empty and both DMLs were
attempted. -/
theorem buffer_drains_witness :
    (∀ p ∈ ([(5, (⟨"t", "insert", ["y"], ["2"], none⟩ : RowChange))]
        : List (Nat × RowChange)), p.1 ≤ 10)
    ∧ (handleMessage (fun _ => true) (fun _ _ => true) (fun _ => true) [] []
        ⟨0, [(5, ⟨"t", "insert", ["y"], ["2"], none⟩)]⟩
        ⟨10, [⟨"t", "insert", ["x"], ["1"], none⟩]⟩).1.buffered = []
    ∧ (handleMessage (fun _ => true) (fun _ _ => true) (fun _ => true) [] []
        ⟨0, [(5, ⟨"t", "insert", ["y"], ["2"], none⟩)]⟩
        ⟨10, [⟨"t", "insert", ["x"], ["1"], none⟩]⟩).2.dmlResults.length = 2 :=
  ⟨by decide,
   (buffer_drains (fun _ => true) (fun _ _ => true) (fun _ => true) [] []
      ⟨0, [(5, ⟨"t", "insert", ["y"], ["2"], none⟩)]⟩
      ⟨10, [⟨"t", "insert", ["x"], ["1"], none⟩]⟩ (by decide)).1,
   by
    rw [(buffer_drains (fun _ => true) (fun _ _ => true) (fun _ => true) [] []
      ⟨0, [(5, ⟨"t", "insert", ["y"], ["2"], none⟩)]⟩
      ⟨10, [⟨"t", "insert", ["x"], ["1"], none⟩]⟩ (by decide)).2]
    decide⟩

/-- C10: the sequence synchronizer runs whenever the decoded change
list is non-empty: the attempted `setval`s and the raised/not-raised
status are exactly those of `sync_sequences` over the catalog rows,
regardless of what the changes were. -/
theorem sync_invoked_on_nonempty_changes (execDdl : String → Bool)
    (execDml : String → List String → Bool) (execSeq : SetvalStmt → Bool)
    (seqRows : List SeqRow) (ddlLog : List DdlEntry)
    (st : ConsumerState) (msg : WalMessage)
    (h : msg.changes ≠ []) :
    (handleMessage execDdl execDml execSeq seqRows ddlLog st msg).2.syncInvoked = true
    ∧ (handleMessage execDdl execDml execSeq seqRows ddlLog st msg).2.syncAttempts
      = (syncSequences execSeq seqRows).1
    ∧ (handleMessage execDdl execDml execSeq seqRows ddlLog st msg).2.crashed
      = (syncSequences execSeq seqRows).2 := by
  have hne : msg.changes.isEmpty = false := by
    cases hc : msg.changes with
    | nil => exact absurd hc h
    | cons a l => rfl
  refine ⟨?_, ?_, ?_⟩
  · rw [hmOut_syncInvoked, hne]
    rfl
  · rw [hmOut_syncAttempts, hne]
    rfl
  · rw [hmOut_crashed, hne]
    rfl

/-- Witness for C10: a message whose only change targets the DDL-log
table — it is dropped, no DML runs — still triggers sequence
resynchronization. -/
theorem sync_invoked_on_nonempty_changes_witness :
    (WalMessage.changes ⟨7, [⟨"translicate_ddl_log", "insert", ["x"], ["1"], none⟩]⟩ ≠ [])
    ∧ (handleMessage (fun _ => true) (fun _ _ => true) (fun _ => true)
        [⟨"public", "t", "id", "t_id_seq"⟩] [] ⟨0, []⟩
        ⟨7, [⟨"translicate_ddl_log", "insert", ["x"], ["1"], none⟩]⟩).2.syncAttempts
      = (syncSequences (fun _ => true) [⟨"public", "t", "id", "t_id_seq"⟩]).1
    ∧ (handleMessage (fun _ => true) (fun _ _ => true) (fun _ => true)
        [⟨"public", "t", "id", "t_id_seq"⟩] [] ⟨0, []⟩
        ⟨7, [⟨"translicate_ddl_log", "insert", ["x"], ["1"], none⟩]⟩).2.dmlResults = [] :=
  ⟨by decide,
   (sync_invoked_on_nonempty_changes (fun _ => true) (fun _ _ => true) (fun _ => true)
      [⟨"public", "t", "id", "t_id_seq"⟩] [] ⟨0, []⟩
      ⟨7, [⟨"translicate_ddl_log", "insert", ["x"], ["1"], none⟩]⟩ (by decide)).2.1,
   by decide⟩

/-- The C1 scenario's DDL log: a single entry at LSN 50 whose
execution against the replica fails. -/
def c1Log : List DdlEntry := [⟨50, "CREATE TABLE t (x int)"⟩]

/-- The C1 scenario's WAL message: LSN 100 carrying one insert. -/
def c1Msg : WalMessage := ⟨100, [⟨"t", "insert", ["x"], ["1"], none⟩]⟩

/-- C1: the ordering invariant fails on the code.  With the DDL entry
at LSN 50 failing to execute, the replayer's high-water mark stays 0,
so the insert at message LSN 100 is buffered — yet the same
invocation's sweep applies it anyway, because the sweep compares the
buffered LSN against the message LSN instead of the applied-DDL LSN.
A row change with LSN 100 reaches the replica while the DDL entry with
LSN 50 ≤ 100 has not, and the buffer is left empty. -/
theorem ordering_invariant_violated :
    (handleMessage (fun _ => false) (fun _ _ => true) (fun _ => true) [] c1Log
        ⟨0, []⟩ c1Msg).1.appliedDdlLsn = 0
    ∧ (handleMessage (fun _ => false) (fun _ _ => true) (fun _ => true) [] c1Log
        ⟨0, []⟩ c1Msg).2.ddlExec = ["CREATE TABLE t (x int)"]
    ∧ (handleMessage (fun _ => false) (fun _ _ => true) (fun _ => true) [] c1Log
        ⟨0, []⟩ c1Msg).2.dmlResults
      = [DmlResult.executed ("INSERT INTO t (x) VALUES (%s)") (["1"]) true]
    ∧ (handleMessage (fun _ => false) (fun _ _ => true) (fun _ => true) [] c1Log
        ⟨0, []⟩ c1Msg).1.buffered = [] := by
  decide
